import Mathlib

/-!
Shallow embedding of the `local-code` terminal coding assistant (Rust) and
verification of its specification claims.

Conventions of the embedding:
* Rust `String`/`&str` is modelled by Lean `String` (a list of unicode
  scalar values); Rust's byte-oriented operations (`len`, slicing `&s[..k]`)
  are modelled through `Char.utf8Size`, with out-of-boundary slicing
  returning `none` (a Rust panic).
* Rust `usize`/`u64` are modelled by `Nat`; the one place where an
  underflowing subtraction occurs (`truncate_if_needed`) models release-mode
  wrapping explicitly.
* `f32`/`f64` configuration values (`backoff_multiplier`) are modelled by
  exact rationals `ℚ`; the `as u64` cast is `Int.toNat ∘ Int.floor`
  (truncation toward zero for the non-negative values that arise,
  saturation at zero below).
* Fallible Rust paths (`anyhow::Result`, panics) are `Except`/explicit
  outcome types.
-/

namespace LocalCode

/-- `Role` from `agent/conversation.rs`. -/
inductive Role where
  | system
  | user
  | assistant
  | tool
deriving DecidableEq, Repr

/-- `Message` from `agent/conversation.rs`.  The `timestamp` field
(`Option<SystemTime>`, `#[serde(skip)]`) carries real wall-clock time and is
irrelevant to every claim; it is omitted from the embedding. -/
structure Message where
  role : Role
  content : String
  tool_name : Option String
deriving DecidableEq, Repr

/-- `Message::system`. -/
def Message.mkSystem (content : String) : Message :=
  { role := .system, content := content, tool_name := none }

/-- `Message::user`. -/
def Message.mkUser (content : String) : Message :=
  { role := .user, content := content, tool_name := none }

/-- `Message::assistant`. -/
def Message.mkAssistant (content : String) : Message :=
  { role := .assistant, content := content, tool_name := none }

/-- `Message::tool`. -/
def Message.mkTool (name content : String) : Message :=
  { role := .tool, content := content, tool_name := some name }

/-- `Conversation` from `agent/conversation.rs`. -/
structure Conversation where
  messages : List Message
  max_messages : Nat
deriving DecidableEq, Repr

namespace Conversation

/-- `Conversation::new`. -/
def new : Conversation := { messages := [], max_messages := 100 }

/-- `Conversation::with_max_messages`. -/
def withMaxMessages (max : Nat) : Conversation :=
  { messages := [], max_messages := max }

/-- usize word size: lengths are below `2 ^ 64`. -/
def usizeWrap : Nat := 2 ^ 64

/-- `Conversation::truncate_if_needed`.  The source computes
`self.max_messages - system_msgs.len()` on `usize`; when the system-message
count exceeds `max_messages` this subtraction underflows (panic in debug
builds, wrap-around in release builds).  We model the release-build
wrap-around; `skip` uses `saturating_sub`, which is `Nat` subtraction. -/
def truncateIfNeeded (c : Conversation) : Conversation :=
  if c.messages.length > c.max_messages then
    let systemMsgs := c.messages.filter (fun m => m.role == Role.system)
    let nonSystem := c.messages.filter (fun m => m.role != Role.system)
    let keepCount :=
      if systemMsgs.length ≤ c.max_messages then
        c.max_messages - systemMsgs.length
      else
        usizeWrap + c.max_messages - systemMsgs.length
    let skip := nonSystem.length - keepCount
    { c with messages := systemMsgs ++ nonSystem.drop skip }
  else
    c

/-- `Conversation::set_max_messages`. -/
def setMaxMessages (c : Conversation) (max : Nat) : Conversation :=
  truncateIfNeeded { c with max_messages := max }

/-- `Conversation::set_system`: retain non-system messages, insert the new
system message at index 0. -/
def setSystem (c : Conversation) (content : String) : Conversation :=
  { c with messages :=
      Message.mkSystem content :: c.messages.filter (fun m => m.role != Role.system) }

/-- `Conversation::add`. -/
def add (c : Conversation) (m : Message) : Conversation :=
  truncateIfNeeded { c with messages := c.messages ++ [m] }

/-- `Conversation::add_user`. -/
def addUser (c : Conversation) (content : String) : Conversation :=
  c.add (Message.mkUser content)

/-- `Conversation::add_assistant`. -/
def addAssistant (c : Conversation) (content : String) : Conversation :=
  c.add (Message.mkAssistant content)

/-- `Conversation::add_tool_result`. -/
def addToolResult (c : Conversation) (name content : String) : Conversation :=
  c.add (Message.mkTool name content)

/-- `Conversation::clear`: keep only the first system message, if any. -/
def clear (c : Conversation) : Conversation :=
  { c with messages :=
      match c.messages.find? (fun m => m.role == Role.system) with
      | some m => [m]
      | none => [] }

end Conversation

/-- Number of messages of role `System` in a list. -/
def countSystem (msgs : List Message) : Nat :=
  (msgs.filter (fun m => m.role == Role.system)).length

/-- Invariant I1 of the spec: at most one `System` message exists, and if
one is present it sits at index 0.  Both clauses together say exactly that
no `System` message occurs after the first position, which is the boolean
below: the tail holds no `System` message. -/
def I1 (msgs : List Message) : Bool :=
  match msgs with
  | [] => true
  | _ :: rest => countSystem rest == 0

/-! ## Rust string primitives

Rust `&str` indexes in UTF-8 bytes; slicing off a character boundary
panics.  These helpers model the byte-oriented operations the source uses.
-/

/-- Rust `str::len()`: the UTF-8 byte length. -/
def byteLen (s : String) : Nat := s.utf8ByteSize

/-- Byte-indexed prefix of a character list: `some` exactly when `i` bytes
end on a character boundary (the Rust slice `&s[..i]`); `none` models the
Rust slicing panic. -/
def takeBytes : List Char → Nat → Option (List Char)
  | _, 0 => some []
  | [], _ + 1 => none
  | c :: cs, i + 1 =>
    if c.utf8Size ≤ i + 1 then
      (takeBytes cs (i + 1 - c.utf8Size)).map (c :: ·)
    else
      none

/-- The Rust slice `&s[..k]`; `none` is a panic. -/
def sliceStr (s : String) (k : Nat) : Option String :=
  (takeBytes s.data k).map List.asString

/-- Split a character list at every occurrence of a separator character
(Rust `str::split(sep)`): always at least one segment. -/
def splitChar (sep : Char) (s : List Char) : List (List Char) :=
  s.foldr
    (fun c acc =>
      match acc with
      | [] => [[]]
      | g :: gs => if c == sep then [] :: g :: gs else (c :: g) :: gs)
    [[]]

/-- Join strings with a separator (Rust `[String]::join`). -/
def joinWith (sep : String) : List String → String
  | [] => ""
  | [x] => x
  | x :: y :: rest => x ++ sep ++ joinWith sep (y :: rest)

/-- Rust `str::lines()`: split on newline, drop a final empty segment,
strip one trailing carriage return from each line. -/
def rustLines (s : String) : List String :=
  let segs := (splitChar '\n' s.data).map List.asString
  let segs := if segs.getLast? == some "" then segs.dropLast else segs
  segs.map (fun l =>
    if l.data.getLast? == some '\r' then l.data.dropLast.asString else l)

/-- Substring test on character lists (Rust `str::contains` with a literal
pattern). -/
def listContainsSub (pat : List Char) : List Char → Bool
  | [] => pat.isEmpty
  | s@(_ :: t) => pat.isPrefixOf s || listContainsSub pat t

/-- Rust `str::contains` with a literal pattern. -/
def strContains (s pat : String) : Bool := listContainsSub pat.data s.data

/-- Fuel-bounded core of `str::matches(pat).count()` for a non-empty
literal pattern: non-overlapping left-to-right matches.  Every step
consumes at least one character, so fuel `s.length` is exact. -/
def countMatchesGo (pat : List Char) : List Char → Nat → Nat
  | _, 0 => 0
  | s, fuel + 1 =>
    if pat.isPrefixOf s then
      countMatchesGo pat (s.drop pat.length) fuel + 1
    else
      match s with
      | [] => 0
      | _ :: t => countMatchesGo pat t fuel

/-- Rust `s.matches(pat).count()`.  The empty pattern matches once at every
character boundary. -/
def countMatches (pat s : String) : Nat :=
  if pat.data.isEmpty then s.data.length + 1
  else countMatchesGo pat.data s.data s.data.length

/-- Rust `str::replacen` with the empty pattern: the replacement is
inserted at the first `n` character boundaries. -/
def replacenEmpty (rep : List Char) : Nat → List Char → List Char
  | 0, s => s
  | _ + 1, [] => rep
  | n + 1, c :: t => rep ++ c :: replacenEmpty rep n t

/-- Fuel-bounded core of Rust `str::replacen` for a non-empty pattern. -/
def replacenGo (pat rep : List Char) : List Char → Nat → Nat → List Char
  | s, _, 0 => s
  | s, 0, _ + 1 => s
  | s, n + 1, fuel + 1 =>
    if pat.isPrefixOf s then
      rep ++ replacenGo pat rep (s.drop pat.length) n fuel
    else
      match s with
      | [] => []
      | c :: t => c :: replacenGo pat rep t (n + 1) fuel

/-- Rust `s.replacen(pat, rep, n)`. -/
def rustReplacen (s pat rep : String) (n : Nat) : String :=
  if pat.data.isEmpty then (replacenEmpty rep.data n s.data).asString
  else (replacenGo pat.data rep.data s.data n s.data.length).asString

/-- Fuel-bounded core of Rust `str::replace` for a non-empty pattern. -/
def replaceAllGo (pat rep : List Char) : List Char → Nat → List Char
  | s, 0 => s
  | s, fuel + 1 =>
    if pat.isPrefixOf s then
      rep ++ replaceAllGo pat rep (s.drop pat.length) fuel
    else
      match s with
      | [] => []
      | c :: t => c :: replaceAllGo pat rep t fuel

/-- Rust `s.replace(pat, rep)`.  With the empty pattern the replacement is
inserted at every character boundary. -/
def rustReplace (s pat rep : String) : String :=
  if pat.data.isEmpty then
    (rep.data ++ s.data.foldr (fun c acc => c :: rep.data ++ acc) []).asString
  else
    (replaceAllGo pat.data rep.data s.data s.data.length).asString

/-! ## Compression (`agent/compression.rs`) -/

/-- `CompressionConfig`.  `threshold` is an `f32` in the source, modelled
as an exact rational; `compress` itself never reads it. -/
structure CompressionConfig where
  threshold : ℚ
  max_tokens : Nat
  preserve_recent : Nat
  preserve_code_blocks : Bool
  preserve_tool_results : Bool
deriving Repr

/-- `CompressionConfig::default()`. -/
def CompressionConfig.defaultCfg : CompressionConfig :=
  { threshold := 1 / 2
    max_tokens := 128000
    preserve_recent := 10
    preserve_code_blocks := true
    preserve_tool_results := true }

/-- `CompressedMessage`. -/
structure CompressedMessage where
  original_count : Nat
  summary : String
deriving Repr, DecidableEq

/-- `CompressedConversation`. -/
structure CompressedConversation where
  system_message : Option Message
  compressed_history : Option CompressedMessage
  preserved_messages : List Message
  original_message_count : Nat
  estimated_tokens_saved : Nat
deriving Repr, DecidableEq

/-- `ContextCompressor::estimate_text_tokens`: integer (floor) divisions
on the ASCII and non-ASCII character counts, plus one. -/
def estimateTextTokens (text : String) : Nat :=
  let asciiCount := (text.data.filter (fun c => c.toNat ≤ 127)).length
  let nonAsciiCount := (text.data.filter (fun c => ¬ c.toNat ≤ 127)).length
  asciiCount / 4 + nonAsciiCount / 2 + 1

/-- `ContextCompressor::estimate_message_tokens`: text estimate plus a
role overhead of 4. -/
def estimateMessageTokens (message : Message) : Nat :=
  estimateTextTokens message.content + 4

/-- `ContextCompressor::estimate_tokens` over a conversation. -/
def estimateTokens (c : Conversation) : Nat :=
  (c.messages.map estimateMessageTokens).sum

/-- `ContextCompressor::contains_code_block`. -/
def containsCodeBlock (text : String) : Bool :=
  strContains text "```" || strContains text "    "

/-- `ContextCompressor::extract_important_messages`. -/
def extractImportantMessages (cfg : CompressionConfig) (messages : List Message) :
    List Message :=
  messages.filter (fun m =>
    (cfg.preserve_tool_results && m.role == Role.tool) ||
    (cfg.preserve_code_blocks && containsCodeBlock m.content))

/-- `ContextCompressor::extract_topic`: first line, truncated at byte 97
with an ellipsis when longer than 100 bytes.  `Except.error` is the Rust
panic when byte 97 is not a character boundary. -/
def extractTopic (content : String) : Except Unit (Option String) :=
  match rustLines content with
  | [] => .ok none
  | first :: _ =>
    if byteLen first > 100 then
      match sliceStr first 97 with
      | none => .error ()
      | some p => .ok (some (p ++ "..."))
    else
      .ok (some first)

/-- `ContextCompressor::extract_action`: first sentence (split at a
period), truncated at byte 97 when longer than 100 bytes. -/
def extractAction (content : String) : Except Unit (Option String) :=
  match ((splitChar '.' content.data).map List.asString).head? with
  | none => .ok none
  | some first =>
    if byteLen first > 100 then
      match sliceStr first 97 with
      | none => .error ()
      | some p => .ok (some (p ++ "..."))
    else
      .ok (some first)

/-- `ContextCompressor::truncate_content`. -/
def truncateContent (content : String) (maxLen : Nat) : Except Unit String :=
  if byteLen content ≤ maxLen then .ok content
  else
    match sliceStr content (maxLen - 3) with
    | none => .error ()
    | some p => .ok (p ++ "...")

/-- Line scanner of `ContextCompressor::extract_code_blocks`: toggles on
fence lines, accumulates the body lines of each block. -/
def extractCodeBlocksGo : List String → Bool → String → List String → List String
  | [], _, _, blocks => blocks
  | line :: rest, inBlock, current, blocks =>
    if "```".data.isPrefixOf line.data then
      if inBlock then extractCodeBlocksGo rest false "" (blocks ++ [current])
      else extractCodeBlocksGo rest true current blocks
    else if inBlock then
      extractCodeBlocksGo rest inBlock (current ++ line ++ "\n") blocks
    else
      extractCodeBlocksGo rest inBlock current blocks

/-- `ContextCompressor::extract_code_blocks`. -/
def extractCodeBlocks (content : String) : Option String :=
  let blocks := extractCodeBlocksGo (rustLines content) false "" []
  if blocks.isEmpty then none
  else some (joinWith "\n---\n" blocks)

/-- Topic/action collection loop of `summarize_messages` (user topics and
assistant actions, in message order). -/
def collectSummaryParts : List Message → Except Unit (List String × List String)
  | [] => .ok ([], [])
  | m :: rest =>
    match m.role with
    | Role.user =>
      match extractTopic m.content with
      | .error e => .error e
      | .ok none => collectSummaryParts rest
      | .ok (some t) => (collectSummaryParts rest).map (fun p => (t :: p.1, p.2))
    | Role.assistant =>
      match extractAction m.content with
      | .error e => .error e
      | .ok none => collectSummaryParts rest
      | .ok (some a) => (collectSummaryParts rest).map (fun p => (p.1, a :: p.2))
    | _ => collectSummaryParts rest

/-- Important-content loop of `summarize_messages`: tool outputs truncated
to 200 bytes, code blocks reproduced. -/
def importantExtracts : List Message → Except Unit String
  | [] => .ok ""
  | m :: rest =>
    let piece : Except Unit String :=
      match m.role with
      | Role.tool =>
        match m.tool_name with
        | some name =>
          match truncateContent m.content 200 with
          | .error e => .error e
          | .ok t => .ok ("\n[Tool: " ++ name ++ "] " ++ t ++ "\n")
        | none => .ok ""
      | Role.assistant =>
        if containsCodeBlock m.content then
          match extractCodeBlocks m.content with
          | some code => .ok ("\n[Code context]:\n" ++ code ++ "\n")
          | none => .ok ""
        else .ok ""
      | Role.user =>
        if containsCodeBlock m.content then
          match extractCodeBlocks m.content with
          | some code => .ok ("\n[Code context]:\n" ++ code ++ "\n")
          | none => .ok ""
        else .ok ""
      | _ => .ok ""
    match piece with
    | .error e => .error e
    | .ok s =>
      match importantExtracts rest with
      | .error e => .error e
      | .ok srest => .ok (s ++ srest)

/-- `ContextCompressor::summarize_messages`. -/
def summarizeMessages (messages important : List Message) : Except Unit String :=
  match collectSummaryParts messages with
  | .error e => .error e
  | .ok (topics, actions) =>
    let s1 :=
      if topics.isEmpty then ""
      else "User discussed: " ++ joinWith ", " topics ++ ".\n"
    let s2 :=
      if actions.isEmpty then ""
      else "Assistant: " ++ joinWith "; " actions ++ ".\n"
    match importantExtracts important with
    | .error e => .error e
    | .ok s3 => .ok (s1 ++ s2 ++ s3)

/-- `ContextCompressor::compress`.  `Except.error` is a panic inside the
summary construction (byte slicing off a character boundary). -/
def compress (cfg : CompressionConfig) (c : Conversation) :
    Except Unit CompressedConversation :=
  let messages := c.messages
  let originalCount := messages.length
  let systemMessage := messages.find? (fun m => m.role == Role.system)
  let nonSystem := messages.filter (fun m => m.role != Role.system)
  if nonSystem.length ≤ cfg.preserve_recent then
    .ok { system_message := systemMessage
          compressed_history := none
          preserved_messages := nonSystem
          original_message_count := originalCount
          estimated_tokens_saved := 0 }
  else
    let splitPoint := nonSystem.length - cfg.preserve_recent
    let oldMessages := nonSystem.take splitPoint
    let recentMessages := nonSystem.drop splitPoint
    let important := extractImportantMessages cfg oldMessages
    match summarizeMessages oldMessages important with
    | .error e => .error e
    | .ok summary =>
      let oldTokens := (oldMessages.map estimateMessageTokens).sum
      let summaryTokens := estimateTextTokens summary
      .ok { system_message := systemMessage
            compressed_history := some ⟨oldMessages.length, summary⟩
            preserved_messages := recentMessages
            original_message_count := originalCount
            estimated_tokens_saved := oldTokens - summaryTokens }

/-- The synthetic summary message text of
`CompressedConversation::to_conversation`. -/
def summaryMessageText (ch : CompressedMessage) : String :=
  "[Previous conversation summary (" ++ toString ch.original_count ++
    " messages)]\n" ++ ch.summary

/-- `CompressedConversation::to_conversation`. -/
def CompressedConversation.toConversation (cc : CompressedConversation) :
    Conversation :=
  let conv := Conversation.new
  let conv :=
    match cc.system_message with
    | some s => conv.setSystem s.content
    | none => conv
  let conv :=
    match cc.compressed_history with
    | some ch => conv.add (Message.mkSystem (summaryMessageText ch))
    | none => conv
  cc.preserved_messages.foldl Conversation.add conv

/-! ## Tools (`tools/mod.rs`, `tools/file/*`, `tools/search/grep.rs`)

`serde_json::Value` is modelled by `Json` (numbers restricted to the
integers the tools read through `as_u64`).  The filesystem is a finite map
from path to text content; I/O failures other than "the path does not
exist" are not modelled.  A tool's `execute` returns an `ExecOutcome`:
`ok` is `Ok(ToolResult)`, `err` is an `anyhow` `Err`, and `panic` is a
Rust panic.
-/

/-- `serde_json::Value`, restricted to what the tools inspect. -/
inductive Json where
  | null
  | bool (b : Bool)
  | num (n : Int)
  | str (s : String)
  | arr (elems : List Json)
  | obj (fields : List (String × Json))

/-- `Value::get` on an object. -/
def Json.get? (j : Json) (k : String) : Option Json :=
  match j with
  | .obj fields => fields.lookup k
  | _ => none

/-- `Value::as_str`. -/
def Json.asStr? : Json → Option String
  | .str s => some s
  | _ => none

/-- `Value::as_bool`. -/
def Json.asBool? : Json → Option Bool
  | .bool b => some b
  | _ => none

/-- `Value::as_u64`: defined on non-negative integers. -/
def Json.asU64? : Json → Option Nat
  | .num n => if n < 0 then none else some n.toNat
  | _ => none

/-- `params.get(k).and_then(|v| v.as_str())`. -/
def getStr (params : Json) (k : String) : Option String :=
  (params.get? k).bind Json.asStr?

/-- `ToolResult` from `tools/mod.rs`. -/
structure ToolResult where
  success : Bool
  output : String
  error : Option String
deriving DecidableEq, Repr

/-- `ToolResult::success`. -/
def ToolResult.mkSuccess (output : String) : ToolResult :=
  { success := true, output := output, error := none }

/-- `ToolResult::failure`. -/
def ToolResult.mkFailure (error : String) : ToolResult :=
  { success := false, output := "", error := some error }

/-- Result of running a tool's `execute`. -/
inductive ExecOutcome where
  | panic
  | err (msg : String)
  | ok (result : ToolResult)
deriving DecidableEq, Repr

/-- Filesystem model: path → text content. -/
abbrev FS := List (String × String)

/-- `tokio::fs::read_to_string`, successful exactly on existing paths. -/
def fsRead (fs : FS) (path : String) : Option String := fs.lookup path

/-- `Path::exists`. -/
def fsExists (fs : FS) (path : String) : Bool := (fsRead fs path).isSome

/-- `tokio::fs::write` on an existing path. -/
def fsWrite (fs : FS) (path content : String) : FS :=
  fs.map (fun pc => if pc.1 == path then (pc.1, content) else pc)

/-- The `{:>6}` format: decimal digits right-aligned to width 6. -/
def padLeft6 (n : Nat) : String :=
  let r := toString n
  (⟨List.replicate (6 - r.length) ' '⟩ : String) ++ r

/-- `ReadTool::execute` from `tools/file/read.rs`. -/
def readExecute (params : Json) (fs : FS) : ExecOutcome :=
  match getStr params "file_path" with
  | none => .err "Missing file_path parameter"
  | some file_path =>
    let offset := ((params.get? "offset").bind Json.asU64?).getD 0
    let limit := (params.get? "limit").bind Json.asU64?
    if ¬ fsExists fs file_path then
      .ok (ToolResult.mkFailure ("File not found: " ++ file_path))
    else
      match fsRead fs file_path with
      | none => .ok (ToolResult.mkFailure "Failed to read file")
      | some content =>
        let lines := rustLines content
        let totalLines := lines.length
        let selected := (lines.drop offset).take (limit.getD totalLines)
        let numbered := selected.enum.map
          (fun p => padLeft6 (offset + p.1 + 1) ++ "\t" ++ p.2)
        .ok (ToolResult.mkSuccess
          ("File: " ++ file_path ++ " (" ++ toString totalLines ++ " lines)\n" ++
            joinWith "\n" numbered))

/-- `EditTool::execute` from `tools/file/edit.rs`.  Returns the outcome and
the filesystem after any write.  The `&old_string[..50]` slice in the
not-found message panics off a character boundary. -/
def editExecute (params : Json) (fs : FS) : ExecOutcome × FS :=
  match getStr params "file_path" with
  | none => (.err "Missing file_path parameter", fs)
  | some file_path =>
  match getStr params "old_string" with
  | none => (.err "Missing old_string parameter", fs)
  | some old_string =>
  match getStr params "new_string" with
  | none => (.err "Missing new_string parameter", fs)
  | some new_string =>
    let replaceAll := ((params.get? "replace_all").bind Json.asBool?).getD false
    if ¬ fsExists fs file_path then
      (.ok (ToolResult.mkFailure ("File not found: " ++ file_path)), fs)
    else
      match fsRead fs file_path with
      | none => (.ok (ToolResult.mkFailure "Failed to read file"), fs)
      | some content =>
        let occurrences := countMatches old_string content
        if occurrences == 0 then
          if byteLen old_string > 50 then
            match sliceStr old_string 50 with
            | none => (.panic, fs)
            | some p =>
              (.ok (ToolResult.mkFailure
                ("old_string not found in file: '" ++ p ++ "...'")), fs)
          else
            (.ok (ToolResult.mkFailure
              ("old_string not found in file: '" ++ old_string ++ "'")), fs)
        else if occurrences > 1 && ¬ replaceAll then
          (.ok (ToolResult.mkFailure
            ("old_string found " ++ toString occurrences ++
              " times. Use replace_all: true to replace all, or provide a more unique string.")),
            fs)
        else
          let newContent :=
            if replaceAll then rustReplace content old_string new_string
            else rustReplacen content old_string new_string 1
          let replaced := if replaceAll then occurrences else 1
          (.ok (ToolResult.mkSuccess
            ("Successfully replaced " ++ toString replaced ++
              " occurrence(s) in " ++ file_path)),
            fsWrite fs file_path newContent)

/-- Environment of `GrepTool::execute`: the external `regex` crate
(compilation result and the line matcher) and the filesystem view the
`glob` crate produces. -/
structure GrepEnv where
  regexErr : String → Option String
  isMatch : String → String → Bool
  pathIsFile : String → Bool
  pathIsDir : String → Bool
  fileContent : String → Option String
  globEntries : String → List String

/-- Single-file branch of grep: every matching line, formatted
`path:lineno:line`, with no cap. -/
def grepFileMatches (matcher : String → Bool) (path content : String) :
    List String :=
  (rustLines content).enum.filterMap (fun p =>
    if matcher p.2 then some (path ++ ":" ++ toString (p.1 + 1) ++ ":" ++ p.2)
    else none)

/-- Per-file line loop of the directory branch: push matches, break right
after the hundredth result. -/
def addFileMatchesCapped (matcher : String → Bool) (path : String) :
    List (Nat × String) → List String → List String
  | [], acc => acc
  | (i, line) :: rest, acc =>
    if matcher line then
      let acc2 := acc ++ [path ++ ":" ++ toString (i + 1) ++ ":" ++ line]
      if acc2.length ≥ 100 then acc2
      else addFileMatchesCapped matcher path rest acc2
    else
      addFileMatchesCapped matcher path rest acc

/-- Entry loop of the directory branch: skip non-files and unreadable
entries, break once one hundred results are collected. -/
def grepDirGo (matcher : String → Bool) (env : GrepEnv) :
    List String → List String → List String
  | [], acc => acc
  | p :: rest, acc =>
    let acc2 :=
      if env.pathIsFile p then
        match env.fileContent p with
        | some content => addFileMatchesCapped matcher p (rustLines content).enum acc
        | none => acc
      else acc
    if acc2.length ≥ 100 then acc2
    else grepDirGo matcher env rest acc2

/-- Result formatting of `GrepTool::execute`: the `(truncated)` marker is
appended whenever at least one hundred results were collected. -/
def grepOutput (results : List String) : ToolResult :=
  if results.isEmpty then
    ToolResult.mkSuccess "No matches found"
  else
    let truncated := if results.length ≥ 100 then " (truncated)" else ""
    ToolResult.mkSuccess
      ("Found " ++ toString results.length ++ " matches" ++ truncated ++
        ":\n" ++ joinWith "\n" results)

/-- `GrepTool::execute` from `tools/search/grep.rs`. -/
def grepExecute (params : Json) (env : GrepEnv) : ExecOutcome :=
  match getStr params "pattern" with
  | none => .err "Missing pattern parameter"
  | some pattern =>
    let searchPath := (getStr params "path").getD "."
    let fileGlob := getStr params "glob"
    match env.regexErr pattern with
    | some e => .ok (ToolResult.mkFailure ("Invalid regex: " ++ e))
    | none =>
      let results : List String :=
        if env.pathIsFile searchPath then
          match env.fileContent searchPath with
          | some content => grepFileMatches (env.isMatch pattern) searchPath content
          | none => []
        else if env.pathIsDir searchPath then
          let globPat :=
            match fileGlob with
            | some g => searchPath ++ "/" ++ g
            | none => searchPath ++ "/**/*"
          grepDirGo (env.isMatch pattern) env (env.globEntries globPat) []
        else []
      .ok (grepOutput results)

/-! ## History persistence (`agent/history.rs`)

`save` serializes `PersistedConversation` with serde and `load` parses it
back; serde's derived JSON round trip is the identity on these records, so
persistence is modelled as the persisted message list itself.  The
`name`, `saved_at` and `metadata` fields do not influence the messages.
The persisted `timestamp` is omitted alongside `Message.timestamp`.
-/

/-- `PersistedMessage`. -/
structure PersistedMessage where
  role : String
  content : String
  tool_name : Option String
deriving DecidableEq, Repr

/-- Role serialization used by `message_to_persisted`. -/
def roleToStr : Role → String
  | .system => "system"
  | .user => "user"
  | .assistant => "assistant"
  | .tool => "tool"

/-- `HistoryManager::message_to_persisted`. -/
def persistedOfMessage (m : Message) : PersistedMessage :=
  { role := roleToStr m.role, content := m.content, tool_name := m.tool_name }

/-- `HistoryManager::persisted_to_message`: unknown role strings fall back
to `User`. -/
def messageOfPersisted (p : PersistedMessage) : Message :=
  { role :=
      if p.role == "system" then Role.system
      else if p.role == "user" then Role.user
      else if p.role == "assistant" then Role.assistant
      else if p.role == "tool" then Role.tool
      else Role.user
    content := p.content
    tool_name := p.tool_name }

/-- The message list `HistoryManager::save` persists. -/
def saveMessages (c : Conversation) : List PersistedMessage :=
  c.messages.map persistedOfMessage

/-- `HistoryManager::load`: rebuild through `Conversation::new` (window of
100) and repeated `add`. -/
def loadMessages (msgs : List PersistedMessage) : Conversation :=
  msgs.foldl (fun conv pm => conv.add (messageOfPersisted pm)) Conversation.new

/-! ## Retry backoff (`llm/client.rs`, `config.rs`)

`calculate_backoff` computes in `f64`; the embedding uses exact rationals,
so every claim about it is settled in the idealised real-arithmetic
reading of the formula (the counterexample below uses values on which the
`f64` computation is exact).
-/

/-- `RetryConfig` from `config.rs`; `backoff_multiplier: f64` as `ℚ`. -/
structure RetryConfig where
  max_retries : Nat
  initial_backoff_ms : Nat
  backoff_multiplier : ℚ
  max_backoff_ms : Nat

/-- Rust `as u64` on a finite float value: truncation toward zero,
saturating at zero for negative values. -/
def ratAsU64 (q : ℚ) : Nat := (⌊q⌋).toNat

/-- `OllamaClient::calculate_backoff`. -/
def calculateBackoff (cfg : RetryConfig) (attempt : Nat) : Nat :=
  let backoff : ℚ := (cfg.initial_backoff_ms : ℚ) * cfg.backoff_multiplier ^ attempt
  ratAsU64 (min backoff (cfg.max_backoff_ms : ℚ))

/-! ## Mode policy (`agent/mode.rs`) -/

/-- `Mode`. -/
inductive Mode where
  | plan
  | execute
deriving DecidableEq, Repr

/-- `PLAN_TOOLS`. -/
def PLAN_TOOLS : List String :=
  ["read", "glob", "grep", "git_status", "git_diff", "git_log",
   "lsp_definition", "lsp_references", "lsp_diagnostics"]

/-- `EXECUTE_TOOLS`. -/
def EXECUTE_TOOLS : List String :=
  ["read", "write", "edit", "bash", "glob", "grep", "git_status", "git_diff",
   "git_add", "git_commit", "git_log",
   "lsp_definition", "lsp_references", "lsp_diagnostics"]

/-- `Mode::allowed_tools`. -/
def Mode.allowedTools : Mode → List String
  | .plan => PLAN_TOOLS
  | .execute => EXECUTE_TOOLS

/-- `Mode::is_tool_allowed`. -/
def Mode.isToolAllowed (m : Mode) (toolName : String) : Bool :=
  m.allowedTools.contains toolName

/-! ## Concrete inputs used by counterexamples and witnesses -/

/-- A conversation with one system message and eleven user messages: under
the default compression configuration (`preserve_recent = 10`) the oldest
user message is summarised. -/
def convC1 : Conversation :=
  { messages :=
      [Message.mkSystem "S", Message.mkUser "u0", Message.mkUser "u1",
       Message.mkUser "u2", Message.mkUser "u3", Message.mkUser "u4",
       Message.mkUser "u5", Message.mkUser "u6", Message.mkUser "u7",
       Message.mkUser "u8", Message.mkUser "u9", Message.mkUser "u10"],
    max_messages := 100 }

/-- A 102-byte single-line text whose byte 97 falls inside a three-byte
character: 96 ASCII `a`s followed by two copies of a three-byte character
(boundaries at 96 and 99). -/
def longLine : String := (⟨List.replicate 96 'a'⟩ : String) ++ "ああ"

/-- Twelve user messages, the oldest carrying `longLine`: compression
summarises the two oldest and `extract_topic` slices `longLine` at
byte 97. -/
def convC10 : Conversation :=
  { messages :=
      [Message.mkUser longLine, Message.mkUser "u0", Message.mkUser "u1",
       Message.mkUser "u2", Message.mkUser "u3", Message.mkUser "u4",
       Message.mkUser "u5", Message.mkUser "u6", Message.mkUser "u7",
       Message.mkUser "u8", Message.mkUser "u9", Message.mkUser "u10"],
    max_messages := 100 }

/-- 101 user messages: one more than the `Conversation::new` window that
`HistoryManager::load` rebuilds into. -/
def convC7 : Conversation :=
  { messages := List.replicate 101 (Message.mkUser "x"), max_messages := 200 }

/-- A 51-byte `old_string`: 48 ASCII `a`s followed by one three-byte
character, so byte 50 is not a character boundary. -/
def c6OldString : String := (⟨List.replicate 48 'a'⟩ : String) ++ "あ"

/-- Edit parameters naming `c6OldString`, which does not occur in the
target file. -/
def c6Params : Json :=
  Json.obj
    [("file_path", Json.str "f.txt"),
     ("old_string", Json.str c6OldString),
     ("new_string", Json.str "x")]

/-- A one-file filesystem for the edit counterexample. -/
def c6FS : FS := [("f.txt", "hello")]

/-- 101 lines of `a`. -/
def c5Content : String := ⟨(List.replicate 101 [Char.ofNat 97, Char.ofNat 10]).flatten⟩

/-- A grep environment with one regular file of 101 matching lines. -/
def c5Env : GrepEnv :=
  { regexErr := fun _ => none
    isMatch := fun _ _ => true
    pathIsFile := fun p => p == "big.txt"
    pathIsDir := fun _ => false
    fileContent := fun p => if p == "big.txt" then some c5Content else none
    globEntries := fun _ => [] }

/-- Grep parameters targeting the single file `big.txt`. -/
def c5Params : Json :=
  Json.obj [("pattern", Json.str "a"), ("path", Json.str "big.txt")]

/-- A grep environment in which nothing exists and nothing matches. -/
def trivialGrepEnv : GrepEnv :=
  { regexErr := fun _ => none
    isMatch := fun _ _ => false
    pathIsFile := fun _ => false
    pathIsDir := fun _ => false
    fileContent := fun _ => none
    globEntries := fun _ => [] }

/-- A retry configuration with multiplier one half: the backoff sequence
halves instead of growing. -/
def cfgHalf : RetryConfig :=
  { max_retries := 3, initial_backoff_ms := 1000,
    backoff_multiplier := 1 / 2, max_backoff_ms := 30000 }

/-- The default retry configuration (`config.rs`): multiplier two. -/
def cfgDouble : RetryConfig :=
  { max_retries := 3, initial_backoff_ms := 1000,
    backoff_multiplier := 2, max_backoff_ms := 30000 }

/-- The estimator exactly as the spec words it — `⌈ascii/4⌉ + ⌈non-ascii/2⌉
+ 4` per message — for comparison with the source's `estimateMessageTokens`
(this definition follows the spec, not the source). -/
def specMessageTokens (text : String) : Nat :=
  let a := (text.data.filter (fun c => c.toNat ≤ 127)).length
  let n := (text.data.filter (fun c => ¬ c.toNat ≤ 127)).length
  (a + 3) / 4 + (n + 1) / 2 + 4

/-! ## Theorems -/

set_option maxRecDepth 40000

/-- C9: every tool name allowed in Plan mode is also allowed in Execute
mode, and `write` is allowed in Execute but not in Plan, so Plan's
capability set is a strict subset of Execute's. -/
theorem c9_plan_strict_subset_execute :
    (∀ t : String,
        Mode.isToolAllowed Mode.plan t = true →
        Mode.isToolAllowed Mode.execute t = true) ∧
    Mode.isToolAllowed Mode.execute "write" = true ∧
    Mode.isToolAllowed Mode.plan "write" = false := by
  refine ⟨?_, by decide, by decide⟩
  intro t ht
  have hmem : t ∈ PLAN_TOOLS := by
    simpa [Mode.isToolAllowed, Mode.allowedTools] using ht
  fin_cases hmem <;> decide

/-- C9 witness: the subset direction applied at the concrete tool name
`read`. -/
theorem c9_witness :
    Mode.isToolAllowed Mode.plan "read" = true ∧
    Mode.isToolAllowed Mode.execute "read" = true :=
  ⟨by decide, c9_plan_strict_subset_execute.1 "read" (by decide)⟩

/-- C4 counterexample: on the empty message the source estimator yields 5,
not the `⌈ascii/4⌉ + ⌈non-ascii/2⌉ + 4 = 4` of the claim. -/
theorem c4_counterexample :
    estimateMessageTokens (Message.mkUser "") = 5 ∧
    specMessageTokens "" = 4 ∧
    estimateMessageTokens (Message.mkUser "") ≠ specMessageTokens "" := by
  refine ⟨by decide, by decide, by decide⟩

/-- C4 amended: per message the source estimator equals
`⌊ascii/4⌋ + ⌊non-ascii/2⌋ + 5` (floor divisions, plus one from the text
estimate and four of role overhead); it is at least 5 on every message —
in particular positive and never zero, also on empty input — and the text
estimate alone is at least 1. -/
theorem c4_amended (m : Message) :
    estimateMessageTokens m =
      (m.content.data.filter (fun c => c.toNat ≤ 127)).length / 4 +
        (m.content.data.filter (fun c => ¬ c.toNat ≤ 127)).length / 2 + 5 ∧
    5 ≤ estimateMessageTokens m ∧
    1 ≤ estimateTextTokens m.content := by
  refine ⟨?_, ?_, ?_⟩
  · simp only [estimateMessageTokens, estimateTextTokens]
  · simp only [estimateMessageTokens, estimateTextTokens]; omega
  · simp only [estimateTextTokens]; omega

/-- C2 counterexample: a conversation holding one user message with
`max_messages = 1` satisfies the bound, yet after `set_system` it holds
two messages. -/
theorem c2_counterexample :
    (Conversation.mk [Message.mkUser "hi"] 1).messages.length ≤ 1 ∧
    ¬ ((Conversation.mk [Message.mkUser "hi"] 1).setSystem "sys").messages.length ≤ 1 := by
  refine ⟨by decide, by decide⟩

/-- C3 counterexample: `ReadTool::execute` on params without `file_path`
returns an `anyhow` `Err`, not a failure `ToolResult`. -/
theorem c3_counterexample :
    readExecute (Json.obj []) [] = ExecOutcome.err "Missing file_path parameter" := by
  decide

/-- C6: the edit tool on a file containing `hello`, with a 51-byte
`old_string` (48 `a`s and one three-byte character) that does not occur in
the file, panics while formatting the not-found message — the source
slices `&old_string[..50]` off a character boundary — instead of returning
the failure result the claim requires. -/
theorem c6_panic_on_unfound_multibyte :
    byteLen c6OldString = 51 ∧
    countMatches c6OldString "hello" = 0 ∧
    (editExecute c6Params c6FS).1 = ExecOutcome.panic := by
  refine ⟨by decide, by decide, by decide⟩

/-- C10: `compress` is not total — on `convC10`, whose oldest user message
has a 102-byte first line with a multi-byte character straddling byte 97,
`extract_topic` slices `&first_line[..97]` off a character boundary and
panics. -/
theorem c10_compress_panics :
    byteLen longLine = 102 ∧
    (compress CompressionConfig.defaultCfg convC10).isOk = false := by
  refine ⟨by decide, by decide⟩

/-- C7 counterexample: saving 101 user messages and loading them back
rebuilds through a fresh conversation whose window is 100, so one message
is dropped and the sequence is not preserved. -/
theorem c7_counterexample :
    convC7.messages.length = 101 ∧
    (loadMessages (saveMessages convC7)).messages.length = 100 := by
  refine ⟨by decide, by decide⟩

/-- C1 counterexample: `convC1` has one system message and eleven
non-system messages (so default compression summarises it), yet the
conversation rebuilt by `to_conversation` carries two `System` messages —
the original and the synthetic summary — violating I1. -/
theorem c1_counterexample :
    countSystem convC1.messages = 1 ∧
    (convC1.messages.filter (fun m => m.role != Role.system)).length = 11 ∧
    ((compress CompressionConfig.defaultCfg convC1).toOption.map
      (fun cc => I1 cc.toConversation.messages)) = some false ∧
    ((compress CompressionConfig.defaultCfg convC1).toOption.map
      (fun cc => countSystem cc.toConversation.messages)) = some 2 := by
  refine ⟨by decide, by decide, by decide, by decide⟩

/-- The system/non-system filters partition a message list. -/
theorem countSystem_add_nonSystem (l : List Message) :
    countSystem l + (l.filter (fun m => m.role != Role.system)).length = l.length := by
  induction l with
  | nil => rfl
  | cons m rest ih =>
    cases h : m.role == Role.system
    · simp only [countSystem, bne, List.filter_cons, h, Bool.not_false,
        Bool.false_eq_true, if_false, if_true, List.length_cons] at *
      omega
    · simp only [countSystem, bne, List.filter_cons, h, Bool.not_true,
        Bool.false_eq_true, if_false, if_true, List.length_cons] at *
      omega

/-- `truncate_if_needed` leaves a conversation within its window
untouched. -/
theorem truncateIfNeeded_eq_self {c : Conversation}
    (h : c.messages.length ≤ c.max_messages) : c.truncateIfNeeded = c := by
  unfold Conversation.truncateIfNeeded
  rw [if_neg (by omega)]

/-- When truncation fires and the system messages fit in the window, the
result fits in the window. -/
theorem truncateIfNeeded_length_le {c : Conversation}
    (hsys : countSystem c.messages ≤ c.max_messages)
    (hlen : c.max_messages < c.messages.length) :
    c.truncateIfNeeded.messages.length ≤ c.max_messages := by
  unfold Conversation.truncateIfNeeded
  rw [if_pos hlen]
  have hpart := countSystem_add_nonSystem c.messages
  simp only [countSystem] at hsys hpart
  simp only [if_pos hsys, List.length_append, List.length_drop]
  omega

/-- `countSystem` of the empty list. -/
theorem countSystem_nil : countSystem [] = 0 := rfl

/-- `countSystem` distributes over append. -/
theorem countSystem_append (l1 l2 : List Message) :
    countSystem (l1 ++ l2) = countSystem l1 + countSystem l2 := by
  simp [countSystem, List.filter_append]

/-- `countSystem` over a cons with a system head. -/
theorem countSystem_cons_sys {m : Message} (h : m.role = Role.system)
    (l : List Message) : countSystem (m :: l) = countSystem l + 1 := by
  simp [countSystem, List.filter_cons, h]

/-- `countSystem` over a cons with a non-system head. -/
theorem countSystem_cons_nonsys {m : Message} (h : ¬ m.role = Role.system)
    (l : List Message) : countSystem (m :: l) = countSystem l := by
  simp [countSystem, List.filter_cons, h]

/-- A list without system messages filters to nothing under the system
predicate. -/
theorem filter_sys_eq_nil {l : List Message} (h : countSystem l = 0) :
    l.filter (fun m => m.role == Role.system) = [] :=
  List.length_eq_zero.mp h

/-- The non-system filter output holds no system messages. -/
theorem countSystem_filter_nonSystem (l : List Message) :
    countSystem (l.filter (fun m => m.role != Role.system)) = 0 := by
  induction l with
  | nil => rfl
  | cons m rest ih =>
    by_cases h : m.role = Role.system
    · simp [List.filter_cons, h, ih]
    · simp only [List.filter_cons, bne, h]
      rw [if_pos (by simp [h])]
      rw [countSystem_cons_nonsys h]
      exact ih

/-- Dropping preserves the absence of system messages. -/
theorem countSystem_drop {l : List Message} (h : countSystem l = 0) (k : Nat) :
    countSystem (l.drop k) = 0 := by
  have hsub := (List.drop_sublist k l).filter (fun m => m.role == Role.system)
  have := hsub.length_le
  simp only [countSystem] at *
  omega

/-- A list without system messages satisfies I1. -/
theorem I1_of_countSystem_zero {l : List Message} (h : countSystem l = 0) :
    I1 l = true := by
  cases l with
  | nil => rfl
  | cons m rest =>
    by_cases hm : m.role = Role.system
    · rw [countSystem_cons_sys hm] at h
      omega
    · rw [countSystem_cons_nonsys hm] at h
      simp [I1, h]

/-- Appending a non-system message preserves I1. -/
theorem I1_append_single_nonsys (msgs : List Message) (m : Message)
    (hm : ¬ m.role = Role.system) (h : I1 msgs = true) :
    I1 (msgs ++ [m]) = true := by
  cases msgs with
  | nil => rfl
  | cons m0 rest =>
    have hr : countSystem rest = 0 := by simpa [I1] using h
    show I1 (m0 :: (rest ++ [m])) = true
    simp [I1, countSystem_append, hr, countSystem_cons_nonsys hm, countSystem_nil]

/-- The reassembly `system-filter ++ (non-system-filter.drop k)` from
`truncate_if_needed` preserves I1. -/
theorem I1_sysfilter_append_drop (msgs : List Message) (h : I1 msgs = true)
    (k : Nat) :
    I1 ((msgs.filter (fun m => m.role == Role.system)) ++
        ((msgs.filter (fun m => m.role != Role.system)).drop k)) = true := by
  cases msgs with
  | nil => simp [I1]
  | cons m0 rest =>
    have hr : countSystem rest = 0 := by simpa [I1] using h
    have hnosys : countSystem
        ((m0 :: rest).filter (fun m => m.role != Role.system)) = 0 :=
      countSystem_filter_nonSystem _
    by_cases hm0 : m0.role = Role.system
    · have hfs : (m0 :: rest).filter (fun m => m.role == Role.system) = [m0] := by
        simp [List.filter_cons, hm0, filter_sys_eq_nil hr]
      rw [hfs]
      show I1 (m0 :: ((m0 :: rest).filter (fun m => m.role != Role.system)).drop k) = true
      simp [I1, countSystem_drop hnosys k]
    · have hfs : (m0 :: rest).filter (fun m => m.role == Role.system) = [] := by
        simp only [List.filter_cons]
        rw [if_neg (by simp [hm0])]
        exact filter_sys_eq_nil hr
      rw [hfs, List.nil_append]
      exact I1_of_countSystem_zero (countSystem_drop hnosys k)

/-- `truncate_if_needed` preserves I1. -/
theorem truncateIfNeeded_I1 {c : Conversation} (h : I1 c.messages = true) :
    I1 c.truncateIfNeeded.messages = true := by
  unfold Conversation.truncateIfNeeded
  split
  · exact I1_sysfilter_append_drop c.messages h _
  · exact h

/-- Adding a non-system message to a conversation that starts with two
system messages followed by non-system ones keeps that shape (truncation
reassembles the two system messages at the front). -/
theorem add_shape (conv : Conversation) (m0 m1 : Message) (rest : List Message)
    (m : Message) (hc : conv.messages = m0 :: m1 :: rest)
    (h0 : m0.role = Role.system) (h1 : m1.role = Role.system)
    (hrest : countSystem rest = 0) (hm : ¬ m.role = Role.system) :
    ∃ rest2, (conv.add m).messages = m0 :: m1 :: rest2 ∧
      countSystem rest2 = 0 := by
  unfold Conversation.add
  by_cases hl : (conv.messages ++ [m]).length ≤ conv.max_messages
  · rw [truncateIfNeeded_eq_self
      (c := ⟨conv.messages ++ [m], conv.max_messages⟩) hl]
    refine ⟨rest ++ [m], ?_, ?_⟩
    · show conv.messages ++ [m] = m0 :: m1 :: (rest ++ [m])
      rw [hc]
      rfl
    · rw [countSystem_append, hrest, countSystem_cons_nonsys hm, countSystem_nil]
  · unfold Conversation.truncateIfNeeded
    rw [if_pos (show
      (⟨conv.messages ++ [m], conv.max_messages⟩ : Conversation).max_messages <
        (⟨conv.messages ++ [m], conv.max_messages⟩ : Conversation).messages.length
      by simp only []; omega)]
    have hx : conv.messages ++ [m] = m0 :: m1 :: (rest ++ [m]) := by
      rw [hc]
      rfl
    have hrm : countSystem (rest ++ [m]) = 0 := by
      rw [countSystem_append, hrest, countSystem_cons_nonsys hm, countSystem_nil]
    have hfs : (m0 :: m1 :: (rest ++ [m])).filter
        (fun x => x.role == Role.system) = [m0, m1] := by
      simp only [List.filter_cons]
      rw [if_pos (by simp [h0]), if_pos (by simp [h1]), filter_sys_eq_nil hrm]
    have hns : (m0 :: m1 :: (rest ++ [m])).filter
        (fun x => x.role != Role.system) =
        (rest ++ [m]).filter (fun x => x.role != Role.system) := by
      simp only [List.filter_cons, bne]
      rw [if_neg (by simp [h0]), if_neg (by simp [h1])]
    simp only [hx, hfs, hns]
    exact ⟨_, rfl, countSystem_drop (countSystem_filter_nonSystem _) _⟩

/-- Folding non-system messages into a conversation that starts with two
system messages keeps that shape. -/
theorem foldl_add_shape (msgs : List Message) :
    countSystem msgs = 0 →
    ∀ (conv : Conversation) (m0 m1 : Message) (rest : List Message),
      conv.messages = m0 :: m1 :: rest →
      m0.role = Role.system → m1.role = Role.system → countSystem rest = 0 →
      ∃ rest2, (msgs.foldl Conversation.add conv).messages = m0 :: m1 :: rest2 ∧
        countSystem rest2 = 0 := by
  induction msgs with
  | nil =>
    intro _ conv m0 m1 rest hc h0 h1 hrest
    exact ⟨rest, hc, hrest⟩
  | cons m tl ih =>
    intro hms conv m0 m1 rest hc h0 h1 hrest
    have hm : ¬ m.role = Role.system := by
      intro hsys
      rw [countSystem_cons_sys hsys] at hms
      omega
    have htl : countSystem tl = 0 := by
      rw [countSystem_cons_nonsys hm] at hms
      exact hms
    obtain ⟨rest2, hc2, hrest2⟩ := add_shape conv m0 m1 rest m hc h0 h1 hrest hm
    exact ih htl (conv.add m) m0 m1 rest2 hc2 h0 h1 hrest2

/-- `to_conversation` on a compressed conversation that has both a system
message and a summary, and whose preserved messages are non-system,
produces the original system message first, the synthetic summary system
message second, and non-system messages after them. -/
theorem toConversation_two_system (m0 : Message) (ch : CompressedMessage)
    (preserved : List Message) (hp : countSystem preserved = 0) (n k : Nat) :
    ∃ rest2,
      (CompressedConversation.toConversation ⟨some m0, some ch, preserved, n, k⟩).messages =
        Message.mkSystem m0.content ::
          Message.mkSystem (summaryMessageText ch) :: rest2 ∧
      countSystem rest2 = 0 := by
  unfold CompressedConversation.toConversation
  have hstart : ((Conversation.new.setSystem m0.content).add
      (Message.mkSystem (summaryMessageText ch))).messages =
      Message.mkSystem m0.content ::
        Message.mkSystem (summaryMessageText ch) :: [] := by
    rfl
  exact foldl_add_shape preserved hp _ _ _ [] hstart rfl rfl rfl

/-- In the summarising branch, `compress` panics exactly when
`summarize_messages` panics. -/
theorem compress_eq_of_summarize (cfg : CompressionConfig) (c : Conversation)
    (hgt : cfg.preserve_recent <
      (c.messages.filter (fun m => m.role != Role.system)).length) :
    compress cfg c =
      (match summarizeMessages
          ((c.messages.filter (fun m => m.role != Role.system)).take
            ((c.messages.filter (fun m => m.role != Role.system)).length -
              cfg.preserve_recent))
          (extractImportantMessages cfg
            ((c.messages.filter (fun m => m.role != Role.system)).take
              ((c.messages.filter (fun m => m.role != Role.system)).length -
                cfg.preserve_recent))) with
      | Except.error e => Except.error e
      | Except.ok summary =>
        Except.ok
          { system_message := c.messages.find? (fun m => m.role == Role.system)
            compressed_history := some
              ⟨((c.messages.filter (fun m => m.role != Role.system)).take
                  ((c.messages.filter (fun m => m.role != Role.system)).length -
                    cfg.preserve_recent)).length, summary⟩
            preserved_messages :=
              (c.messages.filter (fun m => m.role != Role.system)).drop
                ((c.messages.filter (fun m => m.role != Role.system)).length -
                  cfg.preserve_recent)
            original_message_count := c.messages.length
            estimated_tokens_saved :=
              (((c.messages.filter (fun m => m.role != Role.system)).take
                  ((c.messages.filter (fun m => m.role != Role.system)).length -
                    cfg.preserve_recent)).map estimateMessageTokens).sum -
                estimateTextTokens
                  (match summarizeMessages
                      ((c.messages.filter (fun m => m.role != Role.system)).take
                        ((c.messages.filter (fun m => m.role != Role.system)).length -
                          cfg.preserve_recent))
                      (extractImportantMessages cfg
                        ((c.messages.filter (fun m => m.role != Role.system)).take
                          ((c.messages.filter (fun m => m.role != Role.system)).length -
                            cfg.preserve_recent))) with
                    | Except.error _ => ""
                    | Except.ok s => s) }) := by
  unfold compress
  rw [if_neg (by omega)]
  dsimp only
  cases hs : summarizeMessages
      ((c.messages.filter (fun m => m.role != Role.system)).take
        ((c.messages.filter (fun m => m.role != Role.system)).length -
          cfg.preserve_recent))
      (extractImportantMessages cfg
        ((c.messages.filter (fun m => m.role != Role.system)).take
          ((c.messages.filter (fun m => m.role != Role.system)).length -
            cfg.preserve_recent))) with
  | error e => rfl
  | ok summary => rfl

/-- `countSystem` over a cons with a freshly built system message. -/
theorem countSystem_cons_mkSystem (a : String) (l : List Message) :
    countSystem (Message.mkSystem a :: l) = countSystem l + 1 :=
  countSystem_cons_sys (m := Message.mkSystem a) rfl l

/-- C1 amended: the conversation mutators preserve I1 — `set_system`
always establishes it, `add` preserves it for non-system messages (hence
`add_user`, `add_assistant`, `add_tool_result`), and `clear` always
re-establishes it — but `to_conversation` violates it whenever compression
actually summarises a conversation with a system message: the rebuilt
conversation then holds exactly TWO system messages, the original system
message first and the synthetic summary second, so I1's uniqueness clause
fails while the "system first" positioning survives. -/
theorem c1_amended :
    (∀ (c : Conversation) (s : String), I1 (c.setSystem s).messages = true) ∧
    (∀ (c : Conversation) (m : Message), ¬ m.role = Role.system →
        I1 c.messages = true → I1 (c.add m).messages = true) ∧
    (∀ c : Conversation, I1 c.clear.messages = true) ∧
    (∀ (cfg : CompressionConfig) (c : Conversation),
        cfg.preserve_recent <
          (c.messages.filter (fun m => m.role != Role.system)).length →
        (c.messages.find? (fun m => m.role == Role.system)).isSome = true →
        (compress cfg c).isOk = true →
        ∃ cc, compress cfg c = Except.ok cc ∧
          countSystem cc.toConversation.messages = 2 ∧
          I1 cc.toConversation.messages = false ∧
          ∃ m0, c.messages.find? (fun m => m.role == Role.system) = some m0 ∧
            cc.toConversation.messages.head? =
              some (Message.mkSystem m0.content)) := by
  refine ⟨?_, ?_, ?_, ?_⟩
  · intro c s
    show I1 (Message.mkSystem s ::
      c.messages.filter (fun m => m.role != Role.system)) = true
    simp [I1, countSystem_filter_nonSystem]
  · intro c m hm h
    unfold Conversation.add
    exact truncateIfNeeded_I1 (I1_append_single_nonsys c.messages m hm h)
  · intro c
    unfold Conversation.clear
    cases hf : c.messages.find? (fun m => m.role == Role.system) <;> rfl
  · intro cfg c hgt hfind hok
    obtain ⟨m0, hm0⟩ := Option.isSome_iff_exists.mp hfind
    have hch := compress_eq_of_summarize cfg c hgt
    cases hs : summarizeMessages
        ((c.messages.filter (fun m => m.role != Role.system)).take
          ((c.messages.filter (fun m => m.role != Role.system)).length -
            cfg.preserve_recent))
        (extractImportantMessages cfg
          ((c.messages.filter (fun m => m.role != Role.system)).take
            ((c.messages.filter (fun m => m.role != Role.system)).length -
              cfg.preserve_recent))) with
    | error e =>
      rw [hs] at hch
      dsimp only at hch
      rw [hch] at hok
      simp [Except.isOk, Except.toBool] at hok
    | ok summary =>
      rw [hs] at hch
      dsimp only at hch
      rw [hm0] at hch
      obtain ⟨rest2, hmsgs, hr2⟩ :=
        toConversation_two_system m0
          ⟨((c.messages.filter (fun m => m.role != Role.system)).take
              ((c.messages.filter (fun m => m.role != Role.system)).length -
                cfg.preserve_recent)).length, summary⟩
          ((c.messages.filter (fun m => m.role != Role.system)).drop
            ((c.messages.filter (fun m => m.role != Role.system)).length -
              cfg.preserve_recent))
          (countSystem_drop (countSystem_filter_nonSystem _) _)
          c.messages.length
          ((((c.messages.filter (fun m => m.role != Role.system)).take
              ((c.messages.filter (fun m => m.role != Role.system)).length -
                cfg.preserve_recent)).map estimateMessageTokens).sum -
            estimateTextTokens summary)
      refine ⟨_, hch, ?_, ?_, m0, hm0, ?_⟩
      · rw [hmsgs, countSystem_cons_mkSystem, countSystem_cons_mkSystem, hr2]
      · rw [hmsgs]
        simp [I1, countSystem_cons_mkSystem, hr2]
      · rw [hmsgs]
        rfl

/-- C1 witness: the amended theorem applied to `convC1` (and concrete
inputs for each mutator part). -/
theorem c1_witness :
    I1 ((Conversation.mk [Message.mkUser "u"] 100).setSystem "s").messages = true ∧
    (¬ (Message.mkUser "v").role = Role.system ∧
      I1 convC1.messages = true ∧
      I1 (convC1.add (Message.mkUser "v")).messages = true) ∧
    I1 convC1.clear.messages = true ∧
    (CompressionConfig.defaultCfg.preserve_recent <
        (convC1.messages.filter (fun m => m.role != Role.system)).length ∧
     (convC1.messages.find? (fun m => m.role == Role.system)).isSome = true ∧
     (compress CompressionConfig.defaultCfg convC1).isOk = true ∧
     ∃ cc, compress CompressionConfig.defaultCfg convC1 = Except.ok cc ∧
       countSystem cc.toConversation.messages = 2 ∧
       I1 cc.toConversation.messages = false ∧
       ∃ m0, convC1.messages.find? (fun m => m.role == Role.system) = some m0 ∧
         cc.toConversation.messages.head? = some (Message.mkSystem m0.content)) :=
  ⟨c1_amended.1 (Conversation.mk [Message.mkUser "u"] 100) "s",
   ⟨by decide, by decide,
    c1_amended.2.1 convC1 (Message.mkUser "v") (by decide) (by decide)⟩,
   c1_amended.2.2.1 convC1,
   ⟨by decide, by decide, by decide,
    c1_amended.2.2.2 CompressionConfig.defaultCfg convC1
      (by decide) (by decide) (by decide)⟩⟩

/-- `ratAsU64` is monotone. -/
theorem ratAsU64_mono {p q : ℚ} (h : p ≤ q) : ratAsU64 p ≤ ratAsU64 q :=
  Int.toNat_le_toNat (Int.floor_le_floor h)

/-- `ratAsU64` restores natural-number values. -/
theorem ratAsU64_natCast (n : ℕ) : ratAsU64 (n : ℚ) = n := by
  simp [ratAsU64]

/-- `truncate_if_needed` never changes the window size. -/
theorem truncateIfNeeded_max (c : Conversation) :
    c.truncateIfNeeded.max_messages = c.max_messages := by
  unfold Conversation.truncateIfNeeded
  split <;> rfl

/-- Persisting a message and reading it back is the identity. -/
theorem messageOfPersisted_persistedOf (m : Message) :
    messageOfPersisted (persistedOfMessage m) = m := by
  cases m with
  | mk role content tn => cases role <;> rfl

/-- Rebuilding persisted messages through repeated `add` appends them in
order as long as the window is never exceeded. -/
theorem load_foldl (msgs : List PersistedMessage) :
    ∀ conv : Conversation, conv.max_messages = 100 →
      conv.messages.length + msgs.length ≤ 100 →
      (msgs.foldl (fun cv pm => cv.add (messageOfPersisted pm)) conv).messages =
        conv.messages ++ msgs.map messageOfPersisted := by
  induction msgs with
  | nil =>
    intro conv h1 h2
    simp
  | cons pm rest ih =>
    intro conv h1 h2
    have hfit : (conv.messages ++ [messageOfPersisted pm]).length ≤
        conv.max_messages := by
      simp only [List.length_append, List.length_cons, List.length_nil] at *
      omega
    have hadd : (conv.add (messageOfPersisted pm)).messages =
        conv.messages ++ [messageOfPersisted pm] := by
      unfold Conversation.add
      rw [truncateIfNeeded_eq_self
        (c := ⟨conv.messages ++ [messageOfPersisted pm], conv.max_messages⟩) hfit]
    have hmax : (conv.add (messageOfPersisted pm)).max_messages = 100 := by
      unfold Conversation.add
      rw [truncateIfNeeded_max]
      exact h1
    simp only [List.foldl_cons, List.map_cons]
    rw [ih (conv.add (messageOfPersisted pm)) hmax
      (by
        rw [hadd]
        simp only [List.length_append, List.length_cons, List.length_nil] at *
        omega)]
    rw [hadd]
    simp

/-- C7 amended: for every conversation of at most 100 messages — the
window `HistoryManager::load` rebuilds into via `Conversation::new` —
saving and loading preserves the message sequence exactly: every
message's role, content and `tool_name` come back verbatim (for
constructor-built messages `tool_name` is present exactly on `Tool`
messages).  Longer conversations lose their oldest non-system messages to
the load-time window, as the counterexample shows. -/
theorem c7_amended (c : Conversation) (h : c.messages.length ≤ 100) :
    (loadMessages (saveMessages c)).messages = c.messages := by
  unfold loadMessages saveMessages
  rw [load_foldl (c.messages.map persistedOfMessage) Conversation.new rfl
    (by simpa [Conversation.new] using h)]
  simp only [Conversation.new, List.map_map, List.nil_append]
  calc List.map (messageOfPersisted ∘ persistedOfMessage) c.messages
      = List.map id c.messages :=
        List.map_congr_left (fun x _ => messageOfPersisted_persistedOf x)
    _ = c.messages := List.map_id _

/-- A three-message conversation exercising all of system, user and tool
roles for the C7 witness. -/
def c7WitnessConv : Conversation :=
  { messages :=
      [Message.mkSystem "s", Message.mkUser "hi", Message.mkTool "read" "out"],
    max_messages := 100 }

/-- C7 witness: the amended round trip applied to `c7WitnessConv`. -/
theorem c7_witness :
    c7WitnessConv.messages.length ≤ 100 ∧
    (loadMessages (saveMessages c7WitnessConv)).messages = c7WitnessConv.messages :=
  ⟨by decide, c7_amended c7WitnessConv (by decide)⟩

/-- C8 counterexample: with `backoff_multiplier = 1/2` the backoff sequence
decreases — 1000 ms at attempt 0, 500 ms at attempt 1 — so it is not
monotonically non-decreasing for every retry configuration. -/
theorem c8_counterexample :
    calculateBackoff cfgHalf 0 = 1000 ∧
    calculateBackoff cfgHalf 1 = 500 ∧
    calculateBackoff cfgHalf 1 < calculateBackoff cfgHalf 0 := by
  have h0 : calculateBackoff cfgHalf 0 = 1000 := by
    simp only [calculateBackoff, ratAsU64, cfgHalf]
    norm_num
    decide
  have h1 : calculateBackoff cfgHalf 1 = 500 := by
    simp only [calculateBackoff, ratAsU64, cfgHalf]
    norm_num
    decide
  refine ⟨h0, h1, by omega⟩

/-- C8 amended: the computed backoff is the `u64` truncation of
`min(max_backoff_ms, initial_backoff_ms · backoff_multiplierⁱ)`; whenever
`backoff_multiplier ≥ 1` the sequence over attempts is monotonically
non-decreasing, it never exceeds `max_backoff_ms`, and once the raw
product reaches `max_backoff_ms` it equals `max_backoff_ms` exactly
(saturation). -/
theorem c8_amended (cfg : RetryConfig) (i : Nat)
    (h : 1 ≤ cfg.backoff_multiplier) :
    calculateBackoff cfg i ≤ calculateBackoff cfg (i + 1) ∧
    calculateBackoff cfg i ≤ cfg.max_backoff_ms ∧
    ((cfg.max_backoff_ms : ℚ) ≤
        (cfg.initial_backoff_ms : ℚ) * cfg.backoff_multiplier ^ i →
      calculateBackoff cfg i = cfg.max_backoff_ms) := by
  refine ⟨?_, ?_, ?_⟩
  · have hb : (cfg.initial_backoff_ms : ℚ) * cfg.backoff_multiplier ^ i ≤
        (cfg.initial_backoff_ms : ℚ) * cfg.backoff_multiplier ^ (i + 1) :=
      mul_le_mul_of_nonneg_left (pow_le_pow_right₀ h (Nat.le_succ i))
        (Nat.cast_nonneg _)
    exact ratAsU64_mono (min_le_min hb le_rfl)
  · have hm : min ((cfg.initial_backoff_ms : ℚ) * cfg.backoff_multiplier ^ i)
        (cfg.max_backoff_ms : ℚ) ≤ (cfg.max_backoff_ms : ℚ) := min_le_right _ _
    calc calculateBackoff cfg i ≤ ratAsU64 (cfg.max_backoff_ms : ℚ) :=
          ratAsU64_mono hm
      _ = cfg.max_backoff_ms := ratAsU64_natCast _
  · intro hsat
    show ratAsU64 _ = _
    rw [min_eq_right hsat]
    exact ratAsU64_natCast _

/-- C3 amended: when a required parameter is missing, every one of the
three tools returns an `anyhow` `Err` carrying a `Missing … parameter`
message (which the dispatcher in `agent/core.rs` renders as an error Tool
message) — not a failure `ToolResult`; other expected user-level errors,
such as a missing file, do come back as failure `ToolResult`s. -/
theorem c3_amended :
    (∀ (p : Json) (fs : FS), getStr p "file_path" = none →
        readExecute p fs = ExecOutcome.err "Missing file_path parameter") ∧
    (∀ (p : Json) (fs : FS), getStr p "file_path" = none →
        (editExecute p fs).1 = ExecOutcome.err "Missing file_path parameter") ∧
    (∀ (p : Json) (fs : FS) (fp : String), getStr p "file_path" = some fp →
        getStr p "old_string" = none →
        (editExecute p fs).1 = ExecOutcome.err "Missing old_string parameter") ∧
    (∀ (p : Json) (fs : FS) (fp os : String), getStr p "file_path" = some fp →
        getStr p "old_string" = some os → getStr p "new_string" = none →
        (editExecute p fs).1 = ExecOutcome.err "Missing new_string parameter") ∧
    (∀ (p : Json) (env : GrepEnv), getStr p "pattern" = none →
        grepExecute p env = ExecOutcome.err "Missing pattern parameter") ∧
    (∀ (p : Json) (fs : FS) (fp : String), getStr p "file_path" = some fp →
        fsExists fs fp = false →
        readExecute p fs =
          ExecOutcome.ok (ToolResult.mkFailure ("File not found: " ++ fp))) := by
  refine ⟨?_, ?_, ?_, ?_, ?_, ?_⟩
  · intro p fs h
    simp [readExecute, h]
  · intro p fs h
    simp [editExecute, h]
  · intro p fs fp h1 h2
    simp [editExecute, h1, h2]
  · intro p fs fp os h1 h2 h3
    simp [editExecute, h1, h2, h3]
  · intro p env h
    simp [grepExecute, h]
  · intro p fs fp h1 h2
    simp [readExecute, h1, h2]

/-- C3 witness: the amended theorem applied to concrete parameter objects
lacking each required field, and to a read of a missing file. -/
theorem c3_witness :
    (getStr (Json.obj []) "file_path" = none ∧
     readExecute (Json.obj []) [] = ExecOutcome.err "Missing file_path parameter") ∧
    (editExecute (Json.obj []) []).1 = ExecOutcome.err "Missing file_path parameter" ∧
    (editExecute (Json.obj [("file_path", Json.str "f")]) []).1 =
      ExecOutcome.err "Missing old_string parameter" ∧
    (editExecute (Json.obj [("file_path", Json.str "f"), ("old_string", Json.str "o")]) []).1 =
      ExecOutcome.err "Missing new_string parameter" ∧
    grepExecute (Json.obj []) trivialGrepEnv =
      ExecOutcome.err "Missing pattern parameter" ∧
    readExecute (Json.obj [("file_path", Json.str "g")]) [] =
      ExecOutcome.ok (ToolResult.mkFailure ("File not found: " ++ "g")) :=
  ⟨⟨by decide, c3_amended.1 (Json.obj []) [] (by decide)⟩,
   c3_amended.2.1 (Json.obj []) [] (by decide),
   c3_amended.2.2.1 (Json.obj [("file_path", Json.str "f")]) [] "f"
     (by decide) (by decide),
   c3_amended.2.2.2.1
     (Json.obj [("file_path", Json.str "f"), ("old_string", Json.str "o")]) []
     "f" "o" (by decide) (by decide) (by decide),
   c3_amended.2.2.2.2.1 (Json.obj []) trivialGrepEnv (by decide),
   c3_amended.2.2.2.2.2 (Json.obj [("file_path", Json.str "g")]) [] "g"
     (by decide) (by decide)⟩

/-- C5 counterexample: grep over the single file `big.txt`, whose 101
lines all match, reports 101 match lines (the line-count of the output
below its header), exceeding the claimed cap of 100 — the single-file
branch of the source has no cap. -/
theorem c5_counterexample :
    (grepFileMatches (c5Env.isMatch "a") "big.txt" c5Content).length = 101 ∧
    grepExecute c5Params c5Env =
      ExecOutcome.ok
        (grepOutput (grepFileMatches (c5Env.isMatch "a") "big.txt" c5Content)) := by
  refine ⟨by decide, rfl⟩

/-- An empty pattern occurs in every character list. -/
theorem listContainsSub_nil (s : List Char) : listContainsSub [] s = true := by
  cases s <;> simp [listContainsSub]

/-- Substring occurrence is stable under prepending. -/
theorem listContainsSub_append_left (pat ys : List Char) (xs : List Char)
    (h : listContainsSub pat ys = true) : listContainsSub pat (xs ++ ys) = true := by
  induction xs with
  | nil => simpa using h
  | cons c rest ih =>
    have hstep : listContainsSub pat ((c :: rest) ++ ys) =
        (pat.isPrefixOf ((c :: rest) ++ ys) || listContainsSub pat (rest ++ ys)) := rfl
    rw [hstep, ih, Bool.or_true]

/-- A pattern occurs in any list it prefixes. -/
theorem listContainsSub_prefix (pat ys : List Char) :
    listContainsSub pat (pat ++ ys) = true := by
  cases pat with
  | nil => exact listContainsSub_nil ys
  | cons c pt =>
    have hpre : (c :: pt).isPrefixOf ((c :: pt) ++ ys) = true := by
      rw [List.isPrefixOf_iff_prefix]
      exact List.prefix_append _ _
    simp only [List.cons_append, listContainsSub]
    rw [show (c :: pt) ++ ys = c :: (pt ++ ys) from rfl] at hpre
    simp [hpre]

/-- The per-file capped loop never grows past one hundred results when
entered below the cap. -/
theorem addFileMatchesCapped_le (matcher : String → Bool) (path : String) :
    ∀ (lines : List (Nat × String)) (acc : List String), acc.length < 100 →
      (addFileMatchesCapped matcher path lines acc).length ≤ 100 := by
  intro lines
  induction lines with
  | nil =>
    intro acc h
    simp only [addFileMatchesCapped]
    omega
  | cons p rest ih =>
    intro acc h
    obtain ⟨i, line⟩ := p
    cases hm : matcher line
    · simp only [addFileMatchesCapped, hm, Bool.false_eq_true, if_false]
      exact ih acc h
    · simp only [addFileMatchesCapped, hm, if_true]
      by_cases h2 : (acc ++ [path ++ ":" ++ toString (i + 1) ++ ":" ++ line]).length ≥ 100
      · rw [if_pos h2]
        simp only [List.length_append, List.length_cons, List.length_nil] at *
        omega
      · rw [if_neg h2]
        exact ih _ (by simp only [List.length_append, List.length_cons,
          List.length_nil] at *; omega)

/-- The directory loop never grows past one hundred results when entered
below the cap. -/
theorem grepDirGo_le (matcher : String → Bool) (env : GrepEnv) :
    ∀ (entries : List String) (acc : List String), acc.length < 100 →
      (grepDirGo matcher env entries acc).length ≤ 100 := by
  intro entries
  induction entries with
  | nil =>
    intro acc h
    simp only [grepDirGo]
    omega
  | cons p rest ih =>
    intro acc h
    simp only [grepDirGo]
    have hacc2 :
        (if env.pathIsFile p then
          match env.fileContent p with
          | some content => addFileMatchesCapped matcher p (rustLines content).enum acc
          | none => acc
        else acc).length ≤ 100 := by
      cases hf : env.pathIsFile p
      · simp only [hf, Bool.false_eq_true, if_false]
        omega
      · simp only [hf, if_true]
        cases hc : env.fileContent p
        · show acc.length ≤ 100
          omega
        · exact addFileMatchesCapped_le matcher p _ acc h
    by_cases h2 :
        (if env.pathIsFile p then
          match env.fileContent p with
          | some content => addFileMatchesCapped matcher p (rustLines content).enum acc
          | none => acc
        else acc).length ≥ 100
    · rw [if_pos h2]
      exact hacc2
    · rw [if_neg h2]
      exact ih _ (by omega)

/-- The length of the filtered-and-formatted line list equals the number
of matching lines, independent of the enumeration start. -/
theorem filterMap_enumFrom_length (matcher : String → Bool)
    (f : Nat × String → String) :
    ∀ (l : List String) (n : Nat),
      ((List.enumFrom n l).filterMap
        (fun p => if matcher p.2 then some (f p) else none)).length =
      (l.filter matcher).length := by
  intro l
  induction l with
  | nil => intro n; rfl
  | cons a rest ih =>
    intro n
    simp only [List.enumFrom_cons, List.filterMap_cons, List.filter_cons]
    cases hm : matcher a
    · simp only [hm, Bool.false_eq_true, if_false]
      exact ih (n + 1)
    · simp only [hm, if_true, List.length_cons]
      rw [ih (n + 1)]

/-- C5 amended: the 100-hit cap holds for the directory branch of grep —
`grepDirGo` never reports more than one hundred match lines — and
whenever at least one hundred results are collected the output carries the
`(truncated)` marker; the single-file branch, however, is uncapped: it
reports one line per matching line of the file, however many there are,
as the counterexample's 101-line report shows. -/
theorem c5_amended :
    (∀ (matcher : String → Bool) (env : GrepEnv) (entries : List String),
        (grepDirGo matcher env entries []).length ≤ 100) ∧
    (∀ (matcher : String → Bool) (path content : String),
        (grepFileMatches matcher path content).length =
          ((rustLines content).filter matcher).length) ∧
    (∀ results : List String, 100 ≤ results.length →
        strContains (grepOutput results).output " (truncated)" = true) := by
  refine ⟨?_, ?_, ?_⟩
  · intro matcher env entries
    exact grepDirGo_le matcher env entries [] (by simp)
  · intro matcher path content
    simp only [grepFileMatches, List.enum]
    exact filterMap_enumFrom_length matcher _ (rustLines content) 0
  · intro results h
    have hne : results.isEmpty = false := by
      cases results with
      | nil => simp at h
      | cons a l => rfl
    unfold grepOutput
    rw [hne]
    simp only [Bool.false_eq_true, if_false]
    rw [if_pos h]
    show listContainsSub " (truncated)".data
      ((((("Found ".data ++ (toString results.length).data) ++ " matches".data) ++
        " (truncated)".data) ++ ":\n".data) ++ (joinWith "\n" results).data) = true
    simp only [List.append_assoc]
    apply listContainsSub_append_left
    apply listContainsSub_append_left
    apply listContainsSub_append_left
    exact listContainsSub_prefix _ _

/-- C5 witness: the cap applied to a one-entry directory walk, and the
truncation marker applied to exactly one hundred results. -/
theorem c5_witness :
    (grepDirGo (fun _ => true) trivialGrepEnv ["d"] []).length ≤ 100 ∧
    100 ≤ (List.replicate 100 "m").length ∧
    strContains (grepOutput (List.replicate 100 "m")).output " (truncated)" = true :=
  ⟨c5_amended.1 (fun _ => true) trivialGrepEnv ["d"],
   by decide,
   c5_amended.2.2 (List.replicate 100 "m") (by decide)⟩

/-- C2 amended: assuming the conversation is within its window and its
system messages fit (`countSystem + 1 ≤ max_messages`, which invariant I1
gives whenever `max_messages ≥ 2`), the mutators `add` (hence `add_user`,
`add_assistant`, `add_tool_result`), `clear` and `set_max_messages` keep
`len ≤ max_messages`; `set_system`, which inserts without truncating, only
guarantees `len ≤ max_messages + 1`. -/
theorem c2_amended (c : Conversation) (m : Message) (sysText : String)
    (newMax : Nat)
    (h1 : c.messages.length ≤ c.max_messages)
    (h2 : countSystem (c.messages ++ [m]) ≤ c.max_messages)
    (h3 : countSystem c.messages ≤ newMax) :
    (c.add m).messages.length ≤ c.max_messages ∧
    c.clear.messages.length ≤ c.max_messages ∧
    (c.setMaxMessages newMax).messages.length ≤ newMax ∧
    (c.setSystem sysText).messages.length ≤ c.max_messages + 1 := by
  refine ⟨?_, ?_, ?_, ?_⟩
  · unfold Conversation.add
    by_cases hl : (c.messages ++ [m]).length ≤ c.max_messages
    · rw [truncateIfNeeded_eq_self
        (c := ⟨c.messages ++ [m], c.max_messages⟩) hl]
      exact hl
    · exact truncateIfNeeded_length_le (c := ⟨c.messages ++ [m], c.max_messages⟩)
        h2 (show c.max_messages < (c.messages ++ [m]).length by omega)
  · unfold Conversation.clear
    cases hf : c.messages.find? (fun m => m.role == Role.system) with
    | none => exact Nat.zero_le _
    | some m0 =>
      have hne : c.messages ≠ [] := by
        intro hnil
        rw [hnil] at hf
        simp at hf
      have h5 : 1 ≤ c.messages.length := List.length_pos.mpr hne
      show (1 : Nat) ≤ c.max_messages
      omega
  · unfold Conversation.setMaxMessages
    by_cases hl : c.messages.length ≤ newMax
    · rw [truncateIfNeeded_eq_self (c := ⟨c.messages, newMax⟩) hl]
      exact hl
    · exact truncateIfNeeded_length_le (c := ⟨c.messages, newMax⟩)
        h3 (show newMax < c.messages.length by omega)
  · unfold Conversation.setSystem
    have := List.length_filter_le (fun m => m.role != Role.system) c.messages
    simp only [List.length_cons]
    omega

/-- A two-slot conversation holding one system message, for the C2
witness. -/
def c2WitnessConv : Conversation :=
  { messages := [Message.mkSystem "s"], max_messages := 2 }

/-- C2 witness: the amended theorem applied to `c2WitnessConv` with a
fresh user message and window 1. -/
theorem c2_witness :
    (c2WitnessConv.messages.length ≤ c2WitnessConv.max_messages ∧
     countSystem (c2WitnessConv.messages ++ [Message.mkUser "u"]) ≤
       c2WitnessConv.max_messages ∧
     countSystem c2WitnessConv.messages ≤ 1) ∧
    ((c2WitnessConv.add (Message.mkUser "u")).messages.length ≤
       c2WitnessConv.max_messages ∧
     c2WitnessConv.clear.messages.length ≤ c2WitnessConv.max_messages ∧
     (c2WitnessConv.setMaxMessages 1).messages.length ≤ 1 ∧
     (c2WitnessConv.setSystem "s2").messages.length ≤
       c2WitnessConv.max_messages + 1) :=
  ⟨⟨by decide, by decide, by decide⟩,
    c2_amended c2WitnessConv (Message.mkUser "u") "s2" 1
      (by decide) (by decide) (by decide)⟩

/-- C8 witness: the amended theorem applied to the default configuration
(multiplier 2) at attempt 0. -/
theorem c8_witness :
    (1 : ℚ) ≤ cfgDouble.backoff_multiplier ∧
    (calculateBackoff cfgDouble 0 ≤ calculateBackoff cfgDouble 1 ∧
     calculateBackoff cfgDouble 0 ≤ cfgDouble.max_backoff_ms ∧
     ((cfgDouble.max_backoff_ms : ℚ) ≤
         (cfgDouble.initial_backoff_ms : ℚ) * cfgDouble.backoff_multiplier ^ 0 →
       calculateBackoff cfgDouble 0 = cfgDouble.max_backoff_ms)) :=
  ⟨by norm_num [cfgDouble], c8_amended cfgDouble 0 (by norm_num [cfgDouble])⟩

end LocalCode
